import Mathlib

/-!
Shallow embedding of the cross-course aggregation engine of the Google
Classroom MCP server (`src/index.ts`, built file `index.js`).

The remote classroom service is modelled as an `Env` of three fallible
read operations (`Except` plays the role of a rejected promise).  The
aggregation methods `getUpcomingAssignments`, `getMissingAssignments`,
`getGrades` and `calculateGrade` are translated clause by clause from the
TypeScript source; `createCourseworkBody` is the request body that
`createCoursework` sends upstream.

Times are local-clock milliseconds: `Date.now()` becomes the parameter
`now`, and `new Date(year, month - 1, day).getTime()` becomes `dueMs`,
local midnight of the given calendar date, computed by Gregorian calendar
arithmetic for the well-formed dates the service returns.  JS numbers on
which arithmetic is performed (grades, points) are modelled as `ℚ`.
-/

namespace ClassroomMCP

/-- Structured due date as returned by the classroom service:
calendar year/month/day, no timezone. -/
structure DueDate where
  year : Nat
  month : Nat
  day : Nat
  deriving DecidableEq, Repr

/-- Structured due time (hour/minute), only meaningful with a due date. -/
structure DueTime where
  hours : Nat
  minutes : Nat
  deriving DecidableEq, Repr

/-- A course as consumed by the aggregation code (`course.id`, `course.name`).
Fields the embedded operations never read are omitted. -/
structure Course where
  id : String
  name : String
  deriving DecidableEq, Repr

/-- A coursework item, restricted to the fields the aggregation code reads. -/
structure CourseWork where
  id : String
  title : String
  dueDate : Option DueDate
  dueTime : Option DueTime
  maxPoints : Option ℚ
  alternateLink : Option String
  deriving DecidableEq, Repr

/-- A student submission, restricted to the fields the aggregation code reads. -/
structure Submission where
  courseWorkId : String
  state : String
  assignedGrade : Option ℚ
  alternateLink : Option String
  deriving DecidableEq, Repr

/-- The remote classroom service, as consumed by the aggregation engine.
Each operation either rejects (`Except.error`) or resolves with a payload
whose list field may be missing (`Option`, read back with `·.getD []`,
the translation of `... || []`).
`listCourses` takes the `courseStates` filter; `listCourseWork` takes the
course id and the `courseWorkStates` filter; `listSubmissions` takes the
course id, the `courseWorkId` selector and the `userId`. -/
structure Env where
  listCourses : List String → Except String (Option (List Course))
  listCourseWork : String → List String → Except String (Option (List CourseWork))
  listSubmissions : String → String → String → Except String (Option (List Submission))

/-! ### Calendar arithmetic: model of `new Date(y, m - 1, d).getTime()` -/

/-- Gregorian leap-year test. -/
def isLeapYear (y : Nat) : Bool :=
  (y % 4 == 0 && y % 100 != 0) || y % 400 == 0

/-- Days in the months strictly before month `m` (1-based) of a year. -/
def daysBeforeMonth (leap : Bool) (m : Nat) : Nat :=
  let base :=
    match m with
    | 1 => 0
    | 2 => 31
    | 3 => 59
    | 4 => 90
    | 5 => 120
    | 6 => 151
    | 7 => 181
    | 8 => 212
    | 9 => 243
    | 10 => 273
    | 11 => 304
    | _ => 334
  if leap ∧ 3 ≤ m then base + 1 else base

/-- Number of leap years in `[1, y-1]`. -/
def leapYearsBefore (y : Nat) : Nat :=
  (y - 1) / 4 - (y - 1) / 100 + (y - 1) / 400

/-- Days from 1970-01-01 to the calendar date `y-m-d` (Gregorian). -/
def daysSinceEpoch (y m d : Nat) : Int :=
  (365 * (y : Int) + (leapYearsBefore y : Int))
    - (365 * 1970 + (leapYearsBefore 1970 : Int))
    + (daysBeforeMonth (isLeapYear y) m : Int) + ((d : Int) - 1)

def msPerDay : Int := 86400000

/-- Model of `new Date(year, month - 1, day).getTime()`: local midnight of
the due date, in local-clock milliseconds.  The time-of-day of `dueTime`
never enters this computation, exactly as in the source. -/
def dueMs (dd : DueDate) : Int :=
  daysSinceEpoch dd.year dd.month dd.day * msPerDay

/-- Model of `String(n).padStart(2, '0')`. -/
def pad2 (n : Nat) : String :=
  let s := toString n
  if s.length < 2 then ("0") ++ s else s

/-- The derived zero-padded due-date string `year-MM-DD`
(the year is not padded in the source either). -/
def dueDateStr (dd : DueDate) : String :=
  toString dd.year ++ "-" ++ pad2 dd.month ++ "-" ++ pad2 dd.day

/-- Model of `Math.round`: round half toward positive infinity. -/
def jsRound (q : ℚ) : Int := ⌊q + 1 / 2⌋

/-- Model of `possible > 0 ? Math.round(earned / possible * 1000) / 10 : null`,
the percentage rule shared by the breakdown rows and the overall grade. -/
def percentageOf (earned possible : ℚ) : Option ℚ :=
  if 0 < possible then some ((jsRound (earned / possible * 1000) : ℚ) / 10) else none

/-! ### JS object maps keyed by assignment id (later assignment wins) -/

/-- Model of `submissionMap[sub.courseWorkId] = sub` over a plain JS object:
successive assignment, a later entry overwriting an earlier one. -/
def submissionMapOf (subs : List Submission) : String → Option Submission :=
  subs.foldl (fun m sub k => if k = sub.courseWorkId then some sub else m k) (fun _ => none)

/-- Model of `courseworkMap[cw.id] = cw` over a plain JS object. -/
def courseworkMapOf (items : List CourseWork) : String → Option CourseWork :=
  items.foldl (fun m cw k => if k = cw.id then some cw else m k) (fun _ => none)

/-- The specification-level description of the join: the last submission in
iteration order whose `courseWorkId` matches. -/
def lookupLastSub (subs : List Submission) (k : String) : Option Submission :=
  (subs.filter (fun s => s.courseWorkId == k)).getLast?

/-- The specification-level description of the coursework-side join. -/
def lookupLastCW (items : List CourseWork) (k : String) : Option CourseWork :=
  (items.filter (fun cw => cw.id == k)).getLast?

/-- Model of `a.localeCompare(b) <= 0`: code-unit (lexicographic) string
comparison, which on the all-ASCII zero-padded date strings produced by
`dueDateStr` is what `localeCompare` computes.  Written on the character
lists so that it evaluates definitionally; `strLe_iff` below identifies it
with `≤` on `String`. -/
def strLe (a b : String) : Bool := !(decide (b.data < a.data))

/-! ### Stable sort: model of `Array.prototype.sort` with a comparator

`[].sort((a, b) => a.dueDate.localeCompare(b.dueDate))` is, per the
ECMAScript specification, a stable sort by the comparator; for a consistent
comparator the stable sorted permutation is unique, so any stable sort is a
faithful model.  A structural insertion sort is used so that concrete runs
reduce definitionally.  (`localeCompare` on these all-ASCII digit/hyphen
strings agrees with code-unit order, i.e. `String` order.) -/

/-- Insert `a` into `l` before the first element `b` with `le a b`; keeps
the relative order of the elements of `l`, and puts `a` before ties that
came later in the original list. -/
def orderedInsert (le : α → α → Bool) (a : α) : List α → List α
  | [] => [a]
  | b :: l => if le a b then a :: b :: l else b :: orderedInsert le a l

/-- Stable insertion sort by a boolean comparator. -/
def insertionSort (le : α → α → Bool) : List α → List α
  | [] => []
  | a :: l => orderedInsert le a (insertionSort le l)

/-! ### getUpcomingAssignments -/

/-- One record of the Upcoming view. -/
structure UpcomingRecord where
  courseId : String
  courseName : String
  assignmentId : String
  title : String
  dueDate : String
  maxPoints : Option ℚ
  alternateLink : Option String
  deriving DecidableEq, Repr

/-- The filter of `getUpcomingAssignments`: no due date → excluded;
otherwise `due >= now && due <= cutoff` on the local-midnight instant. -/
def upcomingFilter (now cutoff : Int) (cw : CourseWork) : Bool :=
  match cw.dueDate with
  | none => false
  | some dd => decide (now ≤ dueMs dd) && decide (dueMs dd ≤ cutoff)

/-- The record constructor of `getUpcomingAssignments` (the source reads
`cw.dueDate` unconditionally here; the filter guarantees it is present,
so the `""` default is unreachable). -/
def mkUpcomingRecord (course : Course) (cw : CourseWork) : UpcomingRecord :=
  { courseId := course.id
    courseName := course.name
    assignmentId := cw.id
    title := cw.title
    dueDate := (cw.dueDate.map dueDateStr).getD ("")
    maxPoints := cw.maxPoints
    alternateLink := cw.alternateLink }

/-- The per-course task of `getUpcomingAssignments`: the `try`/`catch`
around the coursework fetch maps any rejection to `[]`. -/
def upcomingPerCourse (env : Env) (now cutoff : Int) (course : Course) :
    List UpcomingRecord :=
  match env.listCourseWork course.id ["PUBLISHED"] with
  | .error _ => []
  | .ok data =>
      ((data.getD []).filter (upcomingFilter now cutoff)).map (mkUpcomingRecord course)

/-- The flattened, not yet sorted record stream of the Upcoming view. -/
def upcomingStream (env : Env) (now cutoff : Int) (courses : List Course) :
    List UpcomingRecord :=
  (courses.map (upcomingPerCourse env now cutoff)).flatten

/-- Model of `getUpcomingAssignments`: resolver fixed to ACTIVE, fan-out,
flatten, then a stable sort by the due-date string. `daysArg` is the
caller's optional `days` (`args.days ?? 7`). -/
def getUpcomingAssignments (env : Env) (now : Int) (daysArg : Option Nat) :
    Except String (List UpcomingRecord) :=
  let days := daysArg.getD 7
  let cutoff := now + (days : Int) * msPerDay
  match env.listCourses ["ACTIVE"] with
  | .error e => .error e
  | .ok data =>
      .ok (insertionSort (fun a b => strLe a.dueDate b.dueDate)
        (upcomingStream env now cutoff (data.getD [])))

/-! ### getMissingAssignments -/

/-- One record of the Missing view. -/
structure MissingRecord where
  courseId : String
  courseName : String
  assignmentId : String
  title : String
  dueDate : String
  maxPoints : Option ℚ
  submissionState : String
  alternateLink : Option String
  deriving DecidableEq, Repr

/-- The filter of `getMissingAssignments`: no due date → excluded;
`due >= now` → excluded; then missing unless the joined submission is
TURNED_IN or RETURNED. -/
def missingFilter (now : Int) (submissionMap : String → Option Submission)
    (cw : CourseWork) : Bool :=
  match cw.dueDate with
  | none => false
  | some dd =>
      if decide (now ≤ dueMs dd) then false
      else
        match submissionMap cw.id with
        | none => true
        | some sub => sub.state != "TURNED_IN" && sub.state != "RETURNED"

/-- The record constructor of `getMissingAssignments`
(`sub?.state ?? 'NOT_STARTED'`). -/
def mkMissingRecord (course : Course) (submissionMap : String → Option Submission)
    (cw : CourseWork) : MissingRecord :=
  { courseId := course.id
    courseName := course.name
    assignmentId := cw.id
    title := cw.title
    dueDate := (cw.dueDate.map dueDateStr).getD ("")
    maxPoints := cw.maxPoints
    submissionState := ((submissionMap cw.id).map Submission.state).getD ("NOT_STARTED")
    alternateLink := cw.alternateLink }

/-- The per-course task of `getMissingAssignments`: `Promise.all` of the two
fetches inside a `try`/`catch`, so if either rejects the course yields `[]`. -/
def missingPerCourse (env : Env) (now : Int) (course : Course) : List MissingRecord :=
  match env.listCourseWork course.id ["PUBLISHED"],
      env.listSubmissions course.id ("-") ("me") with
  | .ok cwData, .ok subData =>
      let submissionMap := submissionMapOf (subData.getD [])
      ((cwData.getD []).filter (missingFilter now submissionMap)).map
        (mkMissingRecord course submissionMap)
  | _, _ => []

/-- The flattened, not yet sorted record stream of the Missing view. -/
def missingStream (env : Env) (now : Int) (courses : List Course) : List MissingRecord :=
  (courses.map (missingPerCourse env now)).flatten

/-- Model of `getMissingAssignments`: resolver fixed to ACTIVE, fan-out,
stable sort by the due-date string. -/
def getMissingAssignments (env : Env) (now : Int) : Except String (List MissingRecord) :=
  match env.listCourses ["ACTIVE"] with
  | .error e => .error e
  | .ok data =>
      .ok (insertionSort (fun a b => strLe a.dueDate b.dueDate)
        (missingStream env now (data.getD [])))

/-! ### getGrades -/

/-- One row of the cross-course Grades listing.  The row is built from a
submission; the coursework side (`title`, `maxPoints`, `dueDate`) is absent
when the join finds no coursework (`courseworkMap[sub.courseWorkId] || {}`). -/
structure GradeRecord where
  courseId : String
  courseName : String
  assignmentId : String
  title : Option String
  state : String
  assignedGrade : Option ℚ
  maxPoints : Option ℚ
  dueDate : Option String
  alternateLink : Option String
  deriving DecidableEq, Repr

/-- The row constructor of `getGrades`: one row per submission. -/
def mkGradeRecord (course : Course) (courseworkMap : String → Option CourseWork)
    (sub : Submission) : GradeRecord :=
  let cw := courseworkMap sub.courseWorkId
  { courseId := course.id
    courseName := course.name
    assignmentId := sub.courseWorkId
    title := cw.map CourseWork.title
    state := sub.state
    assignedGrade := sub.assignedGrade
    maxPoints := cw.bind CourseWork.maxPoints
    dueDate := (cw.bind CourseWork.dueDate).map dueDateStr
    alternateLink := sub.alternateLink }

/-- The per-course task of `getGrades`: both fetches under one `try`/`catch`,
then one row per submission in the submissions' order. -/
def gradesPerCourse (env : Env) (course : Course) : List GradeRecord :=
  match env.listCourseWork course.id ["PUBLISHED"],
      env.listSubmissions course.id ("-") ("me") with
  | .ok cwData, .ok subData =>
      let courseworkMap := courseworkMapOf (cwData.getD [])
      (subData.getD []).map (mkGradeRecord course courseworkMap)
  | _, _ => []

/-- Model of `getGrades`: resolver fixed to ACTIVE, fan-out, flatten; no sort. -/
def getGrades (env : Env) : Except String (List GradeRecord) :=
  match env.listCourses ["ACTIVE"] with
  | .error e => .error e
  | .ok data => .ok (((data.getD []).map (gradesPerCourse env)).flatten)

/-! ### calculateGrade -/

/-- One row of the per-course grade breakdown. -/
structure BreakdownEntry where
  assignmentId : String
  title : String
  earned : ℚ
  possible : ℚ
  percentage : Option ℚ
  deriving DecidableEq, Repr

/-- The payload of `calculateGrade`. -/
structure GradeReport where
  courseId : String
  totalEarned : ℚ
  totalPossible : ℚ
  overallPercentage : Option ℚ
  gradedAssignments : Nat
  breakdown : List BreakdownEntry
  deriving DecidableEq, Repr

/-- The breakdown row `calculateGrade` pushes for a guard-passing submission. -/
def mkBreakdownEntry (sub : Submission) (cw : CourseWork) (earned possible : ℚ) :
    BreakdownEntry :=
  { assignmentId := sub.courseWorkId
    title := cw.title
    earned := earned
    possible := possible
    percentage := percentageOf earned possible }

/-- The body of `calculateGrade`'s loop: submissions whose joined coursework
is missing, or has no `maxPoints`, or which carry no `assignedGrade`, are
skipped (`continue`); the rest extend the totals and push a breakdown row. -/
def gradeStep (courseworkMap : String → Option CourseWork)
    (acc : ℚ × ℚ × List BreakdownEntry) (sub : Submission) :
    ℚ × ℚ × List BreakdownEntry :=
  match courseworkMap sub.courseWorkId with
  | none => acc
  | some cw =>
      match cw.maxPoints, sub.assignedGrade with
      | some possible, some earned =>
          (acc.1 + earned, acc.2.1 + possible,
            acc.2.2 ++ [mkBreakdownEntry sub cw earned possible])
      | _, _ => acc

/-- Specification-level description of the submissions that pass the guard
of `calculateGrade`'s loop, paired with their joined coursework, assigned
grade and max points, in submission iteration order. -/
def gradedOf (courseworkMap : String → Option CourseWork) (subs : List Submission) :
    List (Submission × CourseWork × ℚ × ℚ) :=
  subs.filterMap fun sub =>
    match courseworkMap sub.courseWorkId with
    | none => none
    | some cw =>
        match cw.maxPoints, sub.assignedGrade with
        | some possible, some earned => some (sub, cw, earned, possible)
        | _, _ => none

/-- Model of `calculateGrade`: both fetches for one caller-supplied course (no
resolver, no `try`/`catch` — a rejection propagates), then the accumulation
loop over submissions.  -/
def calculateGrade (env : Env) (courseId : String) : Except String GradeReport :=
  match env.listCourseWork courseId ["PUBLISHED"],
      env.listSubmissions courseId ("-") ("me") with
  | .error e, _ => .error e
  | _, .error e => .error e
  | .ok cwData, .ok subData =>
      let courseworkMap := courseworkMapOf (cwData.getD [])
      let result := (subData.getD []).foldl (gradeStep courseworkMap) (0, 0, [])
      .ok { courseId := courseId
            totalEarned := result.1
            totalPossible := result.2.1
            overallPercentage := percentageOf result.1 result.2.1
            gradedAssignments := result.2.2.length
            breakdown := result.2.2 }

/-! ### createCoursework request body -/

/-- The caller-supplied arguments of `create_coursework`. -/
structure CreateArgs where
  courseId : String
  title : String
  description : Option String
  dueDate : Option String
  dueTime : Option String
  maxPoints : Option ℚ
  workType : Option String
  deriving DecidableEq, Repr

/-- The request body `createCoursework` sends upstream.  An `Option` field
models presence/absence of the JS object property; the parsed date and time
components model `split(...).map(Number)` with destructuring, `none` inside
a component standing for `NaN`/`undefined`. -/
structure CreateBody where
  title : String
  description : Option String
  workType : String
  state : String
  maxPoints : Option ℚ
  dueDate : Option (Option Int × Option Int × Option Int)
  dueTime : Option (Option Int × Option Int)
  deriving DecidableEq, Repr

/-- Model of JS `Number(s)` on a split component: the empty string is `0`,
a non-numeric string is `NaN` (`none`). -/
def jsNumber (s : String) : Option Int :=
  if s = "" then some 0 else s.toInt?

/-- The request body construction of `createCoursework`.  JS truthiness
governs the three `if`s: a supplied `maxPoints` of `0`, and empty-string
`dueDate`/`dueTime`/`workType`, are falsy. -/
def createCourseworkBody (args : CreateArgs) : CreateBody :=
  let base : CreateBody :=
    { title := args.title
      description := args.description
      workType :=
        match args.workType with
        | some w => if w = "" then ("ASSIGNMENT") else w
        | none => "ASSIGNMENT"
      state := "PUBLISHED"
      maxPoints := none
      dueDate := none
      dueTime := none }
  let withMax :=
    match args.maxPoints with
    | some p => if p = 0 then base else { base with maxPoints := some p }
    | none => base
  match args.dueDate with
  | none => withMax
  | some s =>
      if s = "" then withMax
      else
        let parts := (s.splitOn ("-")).map jsNumber
        let withDate :=
          { withMax with
              dueDate := some ((parts[0]?).getD none, (parts[1]?).getD none,
                (parts[2]?).getD none) }
        match args.dueTime with
        | none => withDate
        | some t =>
            if t = "" then withDate
            else
              let tparts := (t.splitOn (":")).map jsNumber
              { withDate with
                  dueTime := some ((tparts[0]?).getD none, (tparts[1]?).getD none) }

/-! ### Concrete fixtures (courses, coursework, submissions, environments)
used to exercise the aggregation operations on closed inputs -/

def courseA : Course := ⟨"cA", "Algebra"⟩

def courseB : Course := ⟨"cB", "Biology"⟩

def courseC : Course := ⟨"cC", "Chemistry"⟩

def cwA1 : CourseWork :=
  { id := "a1", title := "A hw 1", dueDate := some ⟨2026, 3, 12⟩, dueTime := none,
    maxPoints := some 10, alternateLink := none }

def cwA2 : CourseWork :=
  { id := "a2", title := "A hw 2", dueDate := some ⟨2026, 3, 1⟩, dueTime := none,
    maxPoints := some 20, alternateLink := none }

def subA2 : Submission :=
  { courseWorkId := "a2", state := "NEW", assignedGrade := none, alternateLink := none }

def cwC1 : CourseWork :=
  { id := "cw-c1", title := "C hw 1", dueDate := some ⟨2026, 3, 11⟩, dueTime := none,
    maxPoints := none, alternateLink := none }

/-- Noon, local clock, on 2026-03-10. -/
def nowMarch10 : Int := dueMs ⟨2026, 3, 10⟩ + 43200000

/-- Three active courses; course B's coursework fetch rejects. -/
def envC1 : Env :=
  { listCourses := fun _ => .ok (some [courseA, courseB, courseC])
    listCourseWork := fun cid _ =>
      if cid = "cA" then .ok (some [cwA1, cwA2])
      else if cid = "cB" then .error ("boom")
      else .ok (some [cwC1])
    listSubmissions := fun cid _ _ =>
      if cid = "cA" then .ok (some [subA2]) else .ok (some []) }

/-- Same as `envC1` except course B's coursework fetch resolves empty. -/
def envC1ok : Env :=
  { listCourses := fun _ => .ok (some [courseA, courseB, courseC])
    listCourseWork := fun cid _ =>
      if cid = "cA" then .ok (some [cwA1, cwA2])
      else if cid = "cB" then .ok (some [])
      else .ok (some [cwC1])
    listSubmissions := fun cid _ _ =>
      if cid = "cA" then .ok (some [subA2]) else .ok (some []) }

def courseC2 : Course := ⟨"c1", "Math"⟩

/-- The scenario coursework of §8: due 2026-03-15, due time 23:59, 100 points. -/
def cwC2 : CourseWork :=
  { id := "cw1", title := "HW", dueDate := some ⟨2026, 3, 15⟩,
    dueTime := some ⟨23, 59⟩, maxPoints := some 100, alternateLink := none }

def envC2 : Env :=
  { listCourses := fun _ => .ok (some [courseC2])
    listCourseWork := fun cid _ =>
      if cid = "c1" then .ok (some [cwC2]) else .ok (some [])
    listSubmissions := fun _ _ _ => .ok (some []) }

def courseC3 : Course := ⟨"c3", "History"⟩

def cwC3a : CourseWork :=
  { id := "h1", title := "Essay", dueDate := some ⟨2026, 3, 1⟩, dueTime := none,
    maxPoints := some 30, alternateLink := none }

def cwC3b : CourseWork :=
  { id := "h2", title := "Quiz", dueDate := some ⟨2026, 3, 2⟩, dueTime := none,
    maxPoints := some 10, alternateLink := none }

def subC3b : Submission :=
  { courseWorkId := "h2", state := "TURNED_IN", assignedGrade := none, alternateLink := none }

/-- One course with two past-due items: `h1` has no submission, `h2` is turned in. -/
def envC3 : Env :=
  { listCourses := fun _ => .ok (some [courseC3])
    listCourseWork := fun cid _ =>
      if cid = "c3" then .ok (some [cwC3a, cwC3b]) else .ok (some [])
    listSubmissions := fun cid _ _ =>
      if cid = "c3" then .ok (some [subC3b]) else .ok (some []) }

def courseC4 : Course := ⟨"c4", "Physics"⟩

def cwC4 : CourseWork :=
  { id := "w4", title := "Lab", dueDate := none, dueTime := none,
    maxPoints := some 50, alternateLink := none }

/-- One course with a coursework item and no submissions at all. -/
def envC4 : Env :=
  { listCourses := fun _ => .ok (some [courseC4])
    listCourseWork := fun cid _ =>
      if cid = "c4" then .ok (some [cwC4]) else .ok (some [])
    listSubmissions := fun _ _ _ => .ok (some []) }

def cwG1 : CourseWork :=
  { id := "g1", title := "Exam", dueDate := none, dueTime := none,
    maxPoints := some 100, alternateLink := none }

def cwG2 : CourseWork :=
  { id := "g2", title := "Quiz", dueDate := none, dueTime := none,
    maxPoints := some 3, alternateLink := none }

def cwG3 : CourseWork :=
  { id := "g3", title := "Ungraded", dueDate := none, dueTime := none,
    maxPoints := none, alternateLink := none }

def subG1 : Submission :=
  { courseWorkId := "g1", state := "RETURNED", assignedGrade := some 87, alternateLink := none }

def subG2 : Submission :=
  { courseWorkId := "g2", state := "RETURNED", assignedGrade := some 1, alternateLink := none }

def subG3 : Submission :=
  { courseWorkId := "g3", state := "RETURNED", assignedGrade := some 5, alternateLink := none }

def subG4 : Submission :=
  { courseWorkId := "nowhere", state := "RETURNED", assignedGrade := some 2, alternateLink := none }

def subG5 : Submission :=
  { courseWorkId := "g1", state := "NEW", assignedGrade := none, alternateLink := none }

/-- One course exercising every branch of the grade loop: two graded
submissions, one on a coursework without max points, one on an unknown
coursework, and one without an assigned grade. -/
def envC56 : Env :=
  { listCourses := fun _ => .ok (some [⟨"c5", "Calculus"⟩])
    listCourseWork := fun cid _ =>
      if cid = "c5" then .ok (some [cwG1, cwG2, cwG3]) else .ok (some [])
    listSubmissions := fun cid _ _ =>
      if cid = "c5" then .ok (some [subG1, subG2, subG3, subG4, subG5]) else .ok (some []) }

def courseX : Course := ⟨"x", "X course"⟩

def courseY : Course := ⟨"y", "Y course"⟩

def cwX1 : CourseWork :=
  { id := "x1", title := "X first", dueDate := some ⟨2026, 3, 12⟩, dueTime := none,
    maxPoints := none, alternateLink := none }

def cwX2 : CourseWork :=
  { id := "x2", title := "X second", dueDate := some ⟨2026, 3, 11⟩, dueTime := none,
    maxPoints := none, alternateLink := none }

def cwY1 : CourseWork :=
  { id := "y1", title := "Y first", dueDate := some ⟨2026, 3, 12⟩, dueTime := none,
    maxPoints := none, alternateLink := none }

/-- Two courses with a due-date tie across courses (`x1` and `y1`). -/
def envC7 : Env :=
  { listCourses := fun _ => .ok (some [courseX, courseY])
    listCourseWork := fun cid _ =>
      if cid = "x" then .ok (some [cwX1, cwX2])
      else if cid = "y" then .ok (some [cwY1])
      else .ok (some [])
    listSubmissions := fun _ _ _ => .ok (some []) }

/-- Resolver answering the ACTIVE-only query with course A, and other
queries with something else. -/
def envC8a : Env :=
  { listCourses := fun states =>
      if states = ["ACTIVE"] then .ok (some [courseA]) else .ok (some [courseA, courseB])
    listCourseWork := fun cid _ =>
      if cid = "cA" then .ok (some [cwA1, cwA2]) else .ok (some [])
    listSubmissions := fun cid _ _ =>
      if cid = "cA" then .ok (some [subA2]) else .ok (some []) }

/-- Same fetches and the same ACTIVE-only answer, but every other resolver
query rejects. -/
def envC8b : Env :=
  { listCourses := fun states =>
      if states = ["ACTIVE"] then .ok (some [courseA]) else .error ("never asked")
    listCourseWork := fun cid _ =>
      if cid = "cA" then .ok (some [cwA1, cwA2]) else .ok (some [])
    listSubmissions := fun cid _ _ =>
      if cid = "cA" then .ok (some [subA2]) else .ok (some []) }

/-- The resolver itself rejects. -/
def envC9 : Env :=
  { listCourses := fun _ => .error ("service down")
    listCourseWork := fun _ _ => .ok (some [cwA1])
    listSubmissions := fun _ _ _ => .ok (some []) }

/-- The report `calculateGrade` produces on `envC56`. -/
def repC56 : GradeReport :=
  { courseId := "c5"
    totalEarned := 88
    totalPossible := 103
    overallPercentage := some (854 / 10)
    gradedAssignments := 2
    breakdown := [mkBreakdownEntry subG1 cwG1 87 100, mkBreakdownEntry subG2 cwG2 1 3] }

/-- The sorted Upcoming output on `envC7`: the tie between `x1` and `y1`
(both due 2026-03-12) keeps per-course-then-per-item order. -/
def uoutC7 : List UpcomingRecord :=
  [mkUpcomingRecord courseX cwX2, mkUpcomingRecord courseX cwX1,
    mkUpcomingRecord courseY cwY1]

def argsC10 : CreateArgs :=
  { courseId := "c", title := "T", description := none, dueDate := some ("2026-03-15"),
    dueTime := some ("23:59"), maxPoints := some 0, workType := none }

/-! ## Helper lemmas

The arithmetic on `ℚ` must evaluate definitionally on the concrete inputs
below; the batteries `Rat` operations are `@[irreducible]` by default. -/

attribute [local semireducible] Rat.mul Rat.inv Rat.add Rat.sub

/-! ### The stable sort -/

theorem orderedInsert_perm (le : α → α → Bool) (a : α) (l : List α) :
    List.Perm (orderedInsert le a l) (a :: l) := by
  induction l with
  | nil => exact List.Perm.refl _
  | cons b l ih =>
    simp only [orderedInsert]
    split
    · exact List.Perm.refl _
    · exact (ih.cons b).trans (List.Perm.swap a b l)

theorem insertionSort_perm (le : α → α → Bool) (l : List α) :
    List.Perm (insertionSort le l) l := by
  induction l with
  | nil => exact List.Perm.refl _
  | cons a l ih => exact (orderedInsert_perm le a _).trans (ih.cons a)

theorem mem_insertionSort (le : α → α → Bool) (l : List α) (b : α) :
    b ∈ insertionSort le l ↔ b ∈ l :=
  (insertionSort_perm le l).mem_iff

theorem mem_orderedInsert (le : α → α → Bool) (a : α) (l : List α) (c : α) :
    c ∈ orderedInsert le a l ↔ c = a ∨ c ∈ l := by
  rw [(orderedInsert_perm le a l).mem_iff, List.mem_cons]

theorem pairwise_orderedInsert (le : α → α → Bool)
    (trans : ∀ x y z, le x y = true → le y z = true → le x z = true)
    (total : ∀ x y, le x y = true ∨ le y x = true)
    (a : α) (l : List α) (h : l.Pairwise (fun x y => le x y = true)) :
    (orderedInsert le a l).Pairwise (fun x y => le x y = true) := by
  induction l with
  | nil => simp [orderedInsert]
  | cons b l ih =>
    rcases List.pairwise_cons.mp h with ⟨hb, hl⟩
    simp only [orderedInsert]
    split
    · rename_i hab
      refine List.pairwise_cons.mpr ⟨?_, h⟩
      intro x hx
      rcases List.mem_cons.mp hx with rfl | hx
      · exact hab
      · exact trans a b x hab (hb x hx)
    · rename_i hab
      have hba : le b a = true := by
        rcases total a b with h1 | h1
        · exact absurd h1 hab
        · exact h1
      refine List.pairwise_cons.mpr ⟨?_, ih hl⟩
      intro x hx
      rcases (mem_orderedInsert le a l x).mp hx with rfl | hx
      · exact hba
      · exact hb x hx

theorem sorted_insertionSort (le : α → α → Bool)
    (trans : ∀ x y z, le x y = true → le y z = true → le x z = true)
    (total : ∀ x y, le x y = true ∨ le y x = true)
    (l : List α) :
    (insertionSort le l).Pairwise (fun x y => le x y = true) := by
  induction l with
  | nil => simp [insertionSort]
  | cons a l ih => exact pairwise_orderedInsert le trans total a _ ih

theorem filter_orderedInsert_neg (le : α → α → Bool) (p : α → Bool) (a : α)
    (hpa : p a = false) (l : List α) :
    (orderedInsert le a l).filter p = l.filter p := by
  induction l with
  | nil => simp [orderedInsert, hpa]
  | cons b l ih =>
    simp only [orderedInsert]
    split
    · simp [List.filter_cons, hpa]
    · simp only [List.filter_cons]
      rw [ih]

theorem filter_orderedInsert_pos (le : α → α → Bool) (p : α → Bool) (a : α)
    (hpa : p a = true) (l : List α)
    (h : ∀ b ∈ l, p b = true → le a b = true) :
    (orderedInsert le a l).filter p = a :: l.filter p := by
  induction l with
  | nil => simp [orderedInsert, hpa]
  | cons b l ih =>
    simp only [orderedInsert]
    split
    · simp [List.filter_cons, hpa]
    · rename_i hab
      have hpb : p b = false := by
        cases hb : p b with
        | false => rfl
        | true => exact absurd (h b (List.mem_cons_self b l) hb) hab
      simp only [List.filter_cons, hpb, cond_false]
      exact ih fun c hc => h c (List.mem_cons_of_mem b hc)

theorem filter_insertionSort (le : α → α → Bool) (p : α → Bool)
    (htied : ∀ a b, p a = true → p b = true → le a b = true) (l : List α) :
    (insertionSort le l).filter p = l.filter p := by
  induction l with
  | nil => rfl
  | cons a l ih =>
    simp only [insertionSort]
    cases hpa : p a with
    | false =>
      rw [filter_orderedInsert_neg le p a hpa, ih, List.filter_cons, hpa]
      simp
    | true =>
      rw [filter_orderedInsert_pos le p a hpa _
          (fun b _ hpb => htied a b hpa hpb),
        ih, List.filter_cons, hpa]
      simp

/-! ## Helper lemmas: the JS object maps -/

theorem foldl_overwrite {α : Type} (key : α → String) (l : List α)
    (m : String → Option α) (k : String) :
    (l.foldl (fun m x j => if j = key x then some x else m j) m) k
      = ((l.filter (fun x => key x == k)).getLast?).or (m k) := by
  induction l generalizing m with
  | nil => simp
  | cons x l ih =>
    simp only [List.foldl_cons, List.filter_cons]
    rw [ih]
    cases hxk : key x == k with
    | false =>
      have : ¬ k = key x := fun h => by simp [h] at hxk
      simp [this]
    | true =>
      have hk : k = key x := (beq_iff_eq.mp hxk).symm
      simp only [cond_true, hk, if_pos rfl]
      cases hfl : (l.filter (fun y => key y == key x)).getLast? with
      | none =>
        have : l.filter (fun y => key y == key x) = [] :=
          List.getLast?_eq_none_iff.mp hfl
        simp [List.getLast?_cons, this]
      | some z =>
        have h1 : (x :: l.filter (fun y => key y == key x)).getLast? = some z := by
          rw [List.getLast?_cons, hfl]
          rfl
        simp [h1, hfl]

theorem submissionMapOf_eq (subs : List Submission) (k : String) :
    submissionMapOf subs k = lookupLastSub subs k := by
  rw [submissionMapOf, lookupLastSub, foldl_overwrite Submission.courseWorkId subs _ k]
  simp

theorem courseworkMapOf_eq (items : List CourseWork) (k : String) :
    courseworkMapOf items k = lookupLastCW items k := by
  rw [courseworkMapOf, lookupLastCW, foldl_overwrite CourseWork.id items _ k]
  simp

/-! ## Helper lemmas: membership characterizations of the three views -/

theorem upcomingFilter_iff (now cutoff : Int) (cw : CourseWork) :
    upcomingFilter now cutoff cw = true ↔
      ∃ dd, cw.dueDate = some dd ∧ now ≤ dueMs dd ∧ dueMs dd ≤ cutoff := by
  cases h : cw.dueDate with
  | none => simp [upcomingFilter, h]
  | some dd => simp [upcomingFilter, h]

theorem mem_upcomingPerCourse (env : Env) (now cutoff : Int) (course : Course)
    (r : UpcomingRecord) :
    r ∈ upcomingPerCourse env now cutoff course ↔
      ∃ wdata, env.listCourseWork course.id ["PUBLISHED"] = .ok wdata ∧
        ∃ cw, cw ∈ wdata.getD [] ∧
          (∃ dd, cw.dueDate = some dd ∧ now ≤ dueMs dd ∧ dueMs dd ≤ cutoff) ∧
          r = mkUpcomingRecord course cw := by
  unfold upcomingPerCourse
  cases hw : env.listCourseWork course.id ["PUBLISHED"] with
  | error e => simp
  | ok wdata =>
    simp only [List.mem_map, List.mem_filter, Except.ok.injEq]
    constructor
    · rintro ⟨cw, ⟨hmem, hfil⟩, rfl⟩
      exact ⟨wdata, rfl, cw, hmem, (upcomingFilter_iff now cutoff cw).mp hfil, rfl⟩
    · rintro ⟨wdata', heq, cw, hmem, hdd, rfl⟩
      subst heq
      exact ⟨cw, ⟨hmem, (upcomingFilter_iff now cutoff cw).mpr hdd⟩, rfl⟩

theorem mem_upcomingStream (env : Env) (now cutoff : Int) (courses : List Course)
    (r : UpcomingRecord) :
    r ∈ upcomingStream env now cutoff courses ↔
      ∃ course, course ∈ courses ∧ r ∈ upcomingPerCourse env now cutoff course := by
  simp [upcomingStream, List.mem_flatten]

theorem missingFilter_iff (now : Int) (submissionMap : String → Option Submission)
    (cw : CourseWork) :
    missingFilter now submissionMap cw = true ↔
      ∃ dd, cw.dueDate = some dd ∧ dueMs dd < now ∧
        ∀ sub, submissionMap cw.id = some sub →
          sub.state ≠ "TURNED_IN" ∧ sub.state ≠ "RETURNED" := by
  cases h : cw.dueDate with
  | none => simp [missingFilter, h]
  | some dd =>
    simp only [missingFilter, h]
    cases hs : submissionMap cw.id with
    | none => simp [Int.not_le]
    | some sub => simp [Int.not_le, and_assoc]

theorem mem_missingPerCourse (env : Env) (now : Int) (course : Course)
    (r : MissingRecord) :
    r ∈ missingPerCourse env now course ↔
      ∃ wdata sdata, env.listCourseWork course.id ["PUBLISHED"] = .ok wdata ∧
        env.listSubmissions course.id ("-") ("me") = .ok sdata ∧
        ∃ cw, cw ∈ wdata.getD [] ∧
          (∃ dd, cw.dueDate = some dd ∧ dueMs dd < now) ∧
          (∀ sub, lookupLastSub (sdata.getD []) cw.id = some sub →
            sub.state ≠ "TURNED_IN" ∧ sub.state ≠ "RETURNED") ∧
          r = mkMissingRecord course (submissionMapOf (sdata.getD [])) cw := by
  unfold missingPerCourse
  cases hw : env.listCourseWork course.id ["PUBLISHED"] with
  | error e =>
    cases hs : env.listSubmissions course.id ("-") ("me") <;> simp
  | ok wdata =>
    cases hs : env.listSubmissions course.id ("-") ("me") with
    | error e => simp
    | ok sdata =>
      simp only [List.mem_map, List.mem_filter, Except.ok.injEq]
      constructor
      · rintro ⟨cw, ⟨hmem, hfil⟩, rfl⟩
        rcases (missingFilter_iff now _ cw).mp hfil with ⟨dd, hdd, hlt, hst⟩
        refine ⟨wdata, sdata, rfl, rfl, cw, hmem, ⟨dd, hdd, hlt⟩, ?_, rfl⟩
        intro sub hsub
        exact hst sub ((submissionMapOf_eq (sdata.getD []) cw.id).trans hsub)
      · rintro ⟨wdata', sdata', h1, h2, cw, hmem, ⟨dd, hdd, hlt⟩, hst, rfl⟩
        subst h1
        subst h2
        refine ⟨cw, ⟨hmem, (missingFilter_iff now _ cw).mpr ⟨dd, hdd, hlt, ?_⟩⟩, rfl⟩
        intro sub hsub
        exact hst sub ((submissionMapOf_eq (sdata.getD []) cw.id).symm.trans hsub)

theorem mem_missingStream (env : Env) (now : Int) (courses : List Course)
    (r : MissingRecord) :
    r ∈ missingStream env now courses ↔
      ∃ course, course ∈ courses ∧ r ∈ missingPerCourse env now course := by
  simp [missingStream, List.mem_flatten]

theorem mem_gradesPerCourse (env : Env) (course : Course) (r : GradeRecord) :
    r ∈ gradesPerCourse env course ↔
      ∃ wdata sdata, env.listCourseWork course.id ["PUBLISHED"] = .ok wdata ∧
        env.listSubmissions course.id ("-") ("me") = .ok sdata ∧
        ∃ sub, sub ∈ sdata.getD [] ∧
          r = mkGradeRecord course (courseworkMapOf (wdata.getD [])) sub := by
  unfold gradesPerCourse
  cases hw : env.listCourseWork course.id ["PUBLISHED"] with
  | error e =>
    cases hs : env.listSubmissions course.id ("-") ("me") <;> simp
  | ok wdata =>
    cases hs : env.listSubmissions course.id ("-") ("me") with
    | error e => simp
    | ok sdata =>
      simp only [List.mem_map, Except.ok.injEq]
      constructor
      · rintro ⟨sub, hmem, rfl⟩
        exact ⟨wdata, sdata, rfl, rfl, sub, hmem, rfl⟩
      · rintro ⟨wdata', sdata', h1, h2, sub, hmem, rfl⟩
        subst h1
        subst h2
        exact ⟨sub, hmem, rfl⟩

theorem mem_getGrades (env : Env) (out : List GradeRecord)
    (h : getGrades env = .ok out) (r : GradeRecord) :
    r ∈ out ↔
      ∃ cdata, env.listCourses ["ACTIVE"] = .ok cdata ∧
        ∃ course, course ∈ cdata.getD [] ∧ r ∈ gradesPerCourse env course := by
  unfold getGrades at h
  cases hc : env.listCourses ["ACTIVE"] with
  | error e => rw [hc] at h; exact absurd h (by simp)
  | ok cdata =>
    rw [hc] at h
    rcases h with ⟨⟩
    simp [List.mem_flatten, hc]

/-! ## Helper lemmas: the grade fold -/

theorem gradeFold (cm : String → Option CourseWork) (subs : List Submission)
    (a b : ℚ) (es : List BreakdownEntry) :
    subs.foldl (gradeStep cm) (a, b, es) =
      (a + ((gradedOf cm subs).map (fun t => t.2.2.1)).sum,
        b + ((gradedOf cm subs).map (fun t => t.2.2.2)).sum,
        es ++ (gradedOf cm subs).map (fun t => mkBreakdownEntry t.1 t.2.1 t.2.2.1 t.2.2.2)) := by
  induction subs generalizing a b es with
  | nil => simp [gradedOf]
  | cons s rest ih =>
    simp only [List.foldl_cons, gradedOf, List.filterMap_cons]
    cases hcw : cm s.courseWorkId with
    | none =>
      simp only [gradeStep, hcw]
      exact ih a b es
    | some cw =>
      cases hmp : cw.maxPoints with
      | none =>
        cases hg : s.assignedGrade with
        | none =>
          simp only [gradeStep, hcw, hmp, hg]
          exact ih a b es
        | some g =>
          simp only [gradeStep, hcw, hmp, hg]
          exact ih a b es
      | some p =>
        cases hg : s.assignedGrade with
        | none =>
          simp only [gradeStep, hcw, hmp, hg]
          exact ih a b es
        | some g =>
          simp only [gradeStep, hcw, hmp, hg, List.map_cons, List.sum_cons]
          rw [ih]
          simp [gradedOf, add_assoc]

theorem calculateGrade_spec (env : Env) (cid : String)
    (cwData : Option (List CourseWork)) (subData : Option (List Submission))
    (rep : GradeReport)
    (hcw : env.listCourseWork cid ["PUBLISHED"] = .ok cwData)
    (hsub : env.listSubmissions cid ("-") ("me") = .ok subData)
    (h : calculateGrade env cid = .ok rep) :
    rep.courseId = cid ∧
    rep.totalEarned =
      ((gradedOf (courseworkMapOf (cwData.getD [])) (subData.getD [])).map
        (fun t => t.2.2.1)).sum ∧
    rep.totalPossible =
      ((gradedOf (courseworkMapOf (cwData.getD [])) (subData.getD [])).map
        (fun t => t.2.2.2)).sum ∧
    rep.breakdown =
      (gradedOf (courseworkMapOf (cwData.getD [])) (subData.getD [])).map
        (fun t => mkBreakdownEntry t.1 t.2.1 t.2.2.1 t.2.2.2) ∧
    rep.gradedAssignments = rep.breakdown.length ∧
    rep.overallPercentage = percentageOf rep.totalEarned rep.totalPossible := by
  simp only [calculateGrade, hcw, hsub] at h
  rw [gradeFold] at h
  have h2 := Except.ok.inj h
  subst h2
  simp

theorem strLe_iff (a b : String) : strLe a b = true ↔ a ≤ b := by
  simp only [strLe, Bool.not_eq_true', decide_eq_false_iff_not]
  rw [String.le_iff_toList_le]
  exact not_lt

theorem percentageOf_isSome (a b : ℚ) : (percentageOf a b).isSome ↔ 0 < b := by
  unfold percentageOf
  split <;> simp_all

theorem mem_gradedOf (cm : String → Option CourseWork) (subs : List Submission)
    (sub : Submission) (cw : CourseWork) (g p : ℚ) :
    (sub, cw, g, p) ∈ gradedOf cm subs ↔
      sub ∈ subs ∧ cm sub.courseWorkId = some cw ∧
        cw.maxPoints = some p ∧ sub.assignedGrade = some g := by
  simp only [gradedOf, List.mem_filterMap]
  constructor
  · rintro ⟨s, hs, hf⟩
    cases hcw : cm s.courseWorkId with
    | none => simp [hcw] at hf
    | some cw' =>
      cases hmp : cw'.maxPoints with
      | none =>
        cases hg : s.assignedGrade with
        | none => simp [hcw, hmp, hg] at hf
        | some g' => simp [hcw, hmp, hg] at hf
      | some p' =>
        cases hg : s.assignedGrade with
        | none => simp [hcw, hmp, hg] at hf
        | some g' =>
          simp only [hcw, hmp, hg, Option.some.injEq, Prod.mk.injEq] at hf
          obtain ⟨rfl, rfl, rfl, rfl⟩ := hf
          exact ⟨hs, hcw, hmp, hg⟩
  · rintro ⟨hs, hcw, hmp, hg⟩
    exact ⟨sub, hs, by simp [hcw, hmp, hg]⟩

/-! ## Claim C2 -/

/-- C2: for every course set and every lookahead `daysArg` (defaulting to 7
when not supplied), the Upcoming view contains exactly the records whose
coursework has a due date `dd` with `now ≤ dueMs dd ≤ now + days·msPerDay`,
the due date being interpreted at local midnight (`dueMs` ignores any due
time); the emitted record is `mkUpcomingRecord`, whose due-date string is
the zero-padded calendar date. -/
theorem c2_upcoming_window (env : Env) (now : Int) (daysArg : Option Nat)
    (out : List UpcomingRecord)
    (h : getUpcomingAssignments env now daysArg = .ok out) (r : UpcomingRecord) :
    r ∈ out ↔
      ∃ cdata, env.listCourses ["ACTIVE"] = .ok cdata ∧
        ∃ course, course ∈ cdata.getD [] ∧
          ∃ wdata, env.listCourseWork course.id ["PUBLISHED"] = .ok wdata ∧
            ∃ cw, cw ∈ wdata.getD [] ∧
              (∃ dd, cw.dueDate = some dd ∧ now ≤ dueMs dd ∧
                dueMs dd ≤ now + ((daysArg.getD 7 : Nat) : Int) * msPerDay) ∧
              r = mkUpcomingRecord course cw := by
  cases hc : env.listCourses ["ACTIVE"] with
  | error e =>
    unfold getUpcomingAssignments at h
    rw [hc] at h
    exact absurd h (by simp)
  | ok cdata =>
    simp only [getUpcomingAssignments, hc, Except.ok.injEq] at h
    subst h
    rw [mem_insertionSort, mem_upcomingStream]
    constructor
    · rintro ⟨course, hcourse, hr⟩
      rcases (mem_upcomingPerCourse env now _ course r).mp hr with
        ⟨wdata, hw, cw, hcw, hdd, rfl⟩
      exact ⟨cdata, rfl, course, hcourse, wdata, hw, cw, hcw, hdd, rfl⟩
    · rintro ⟨cdata', hc', course, hcourse, wdata, hw, cw, hcw, hdd, rfl⟩
      have := Except.ok.inj hc'
      subst this
      exact ⟨course, hcourse,
        (mem_upcomingPerCourse env now _ course _).mpr ⟨wdata, hw, cw, hcw, hdd, rfl⟩⟩

/-- Witness for C2: the §8 scenario.  On 2026-03-10 (noon) with `days = 7`,
the coursework due 2026-03-15 at 23:59 is included, and its due-date string
is `"2026-03-15"`. -/
theorem c2_upcoming_window_witness :
    getUpcomingAssignments envC2 nowMarch10 (some 7) =
      .ok [mkUpcomingRecord courseC2 cwC2] ∧
    mkUpcomingRecord courseC2 cwC2 ∈ [mkUpcomingRecord courseC2 cwC2] ∧
    (mkUpcomingRecord courseC2 cwC2).dueDate = "2026-03-15" := by
  refine ⟨rfl, ?_, rfl⟩
  exact (c2_upcoming_window envC2 nowMarch10 (some 7) _ rfl _).mpr
    ⟨some [courseC2], rfl, courseC2, by decide, some [cwC2], rfl, cwC2, by decide,
      ⟨⟨2026, 3, 15⟩, rfl, by decide, by decide⟩, rfl⟩

/-! ## Claim C3 -/

/-- C3: the Missing view contains exactly the records whose coursework has a
due date strictly before `now` and whose joined submission (the last one in
iteration order matching the assignment id) is absent or in a state other
than TURNED_IN / RETURNED; the emitted status label is the submission's
state when present and the sentinel NOT_STARTED otherwise; coursework
without a due date is excluded. -/
theorem c3_missing_membership (env : Env) (now : Int) (out : List MissingRecord)
    (h : getMissingAssignments env now = .ok out) (r : MissingRecord) :
    r ∈ out ↔
      ∃ cdata, env.listCourses ["ACTIVE"] = .ok cdata ∧
        ∃ course, course ∈ cdata.getD [] ∧
          ∃ wdata sdata, env.listCourseWork course.id ["PUBLISHED"] = .ok wdata ∧
            env.listSubmissions course.id ("-") ("me") = .ok sdata ∧
            ∃ cw, cw ∈ wdata.getD [] ∧
              (∃ dd, cw.dueDate = some dd ∧ dueMs dd < now) ∧
              (∀ sub, lookupLastSub (sdata.getD []) cw.id = some sub →
                sub.state ≠ "TURNED_IN" ∧ sub.state ≠ "RETURNED") ∧
              r = mkMissingRecord course (submissionMapOf (sdata.getD [])) cw ∧
              r.submissionState =
                ((lookupLastSub (sdata.getD []) cw.id).map Submission.state).getD
                  "NOT_STARTED" := by
  cases hc : env.listCourses ["ACTIVE"] with
  | error e =>
    unfold getMissingAssignments at h
    rw [hc] at h
    exact absurd h (by simp)
  | ok cdata =>
    simp only [getMissingAssignments, hc, Except.ok.injEq] at h
    subst h
    rw [mem_insertionSort, mem_missingStream]
    constructor
    · rintro ⟨course, hcourse, hr⟩
      rcases (mem_missingPerCourse env now course r).mp hr with
        ⟨wdata, sdata, hw, hs, cw, hcw, hdd, hst, rfl⟩
      refine ⟨cdata, rfl, course, hcourse, wdata, sdata, hw, hs, cw, hcw, hdd, hst,
        rfl, ?_⟩
      simp [mkMissingRecord, submissionMapOf_eq]
    · rintro ⟨cdata', hc', course, hcourse, wdata, sdata, hw, hs, cw, hcw, hdd, hst,
        rfl, hlabel⟩
      have := Except.ok.inj hc'
      subst this
      exact ⟨course, hcourse,
        (mem_missingPerCourse env now course _).mpr
          ⟨wdata, sdata, hw, hs, cw, hcw, hdd, hst, rfl⟩⟩

/-- Witness for C3: in `envC3`, on 2026-03-10, the never-submitted item `h1`
is missing with label NOT_STARTED, while the TURNED_IN item `h2` is
excluded. -/
theorem c3_missing_membership_witness :
    getMissingAssignments envC3 nowMarch10 =
      .ok [mkMissingRecord courseC3 (submissionMapOf [subC3b]) cwC3a] ∧
    mkMissingRecord courseC3 (submissionMapOf [subC3b]) cwC3a ∈
      [mkMissingRecord courseC3 (submissionMapOf [subC3b]) cwC3a] ∧
    (mkMissingRecord courseC3 (submissionMapOf [subC3b]) cwC3a).submissionState =
      "NOT_STARTED" ∧
    ¬ mkMissingRecord courseC3 (submissionMapOf [subC3b]) cwC3b ∈
      [mkMissingRecord courseC3 (submissionMapOf [subC3b]) cwC3a] := by
  refine ⟨rfl, ?_, rfl, by decide⟩
  exact (c3_missing_membership envC3 nowMarch10 _ rfl _).mpr
    ⟨some [courseC3], rfl, courseC3, by decide, some [cwC3a, cwC3b], some [subC3b],
      rfl, rfl, cwC3a, by decide, ⟨⟨2026, 3, 1⟩, rfl, by decide⟩,
      by decide, rfl, rfl⟩

/-! ## Claim C4 -/

/-- Counterexample for C4: in `envC4` the active course `c4` has the
coursework `w4` and no submissions at all, yet the cross-course Grades
listing is the empty list — no row for `w4` with an absent/null state (or
any row) appears, contradicting the claim. -/
theorem c4_counterexample :
    envC4.listCourses ["ACTIVE"] = .ok (some [courseC4]) ∧
    envC4.listCourseWork ("c4") ["PUBLISHED"] = .ok (some [cwC4]) ∧
    envC4.listSubmissions ("c4") ("-") ("me") = .ok (some []) ∧
    getGrades envC4 = .ok [] ∧
    ¬ ∃ r : GradeRecord, r ∈ ([] : List GradeRecord) ∧ r.assignmentId = cwC4.id :=
  ⟨rfl, rfl, rfl, rfl, by simp⟩

/-- C4 (amended): a CourseWork with no matching submission does not appear
in the cross-course Grades listing at all — every listing row arises from a
submission of its course — and it does not appear in the per-course grade
calculation's breakdown. -/
theorem c4_join_absence (env : Env) (cid : String) (x : String)
    (sdata : Option (List Submission))
    (hs : env.listSubmissions cid ("-") ("me") = .ok sdata)
    (hnosub : ∀ sub ∈ sdata.getD [], sub.courseWorkId ≠ x) :
    (∀ out, getGrades env = .ok out →
      ∀ r ∈ out, r.courseId = cid → r.assignmentId ≠ x) ∧
    (∀ rep, calculateGrade env cid = .ok rep →
      ∀ e ∈ rep.breakdown, e.assignmentId ≠ x) := by
  constructor
  · intro out h r hr hcid
    rcases (mem_getGrades env out h r).mp hr with ⟨cdata, hc, course, hcourse, hpc⟩
    rcases (mem_gradesPerCourse env course r).mp hpc with
      ⟨wdata, sdata', hw, hs', sub, hsub, rfl⟩
    have hcourseid : course.id = cid := hcid
    rw [hcourseid, hs] at hs'
    have := Except.ok.inj hs'
    subst this
    exact hnosub sub hsub
  · intro rep h e he
    cases hcw : env.listCourseWork cid ["PUBLISHED"] with
    | error err =>
      unfold calculateGrade at h
      rw [hcw] at h
      exact absurd h (by simp)
    | ok cwData =>
      rcases calculateGrade_spec env cid cwData sdata rep hcw hs h with
        ⟨-, -, -, hbd, -, -⟩
      rw [hbd] at he
      rcases List.mem_map.mp he with ⟨t, ht, rfl⟩
      obtain ⟨sub, cw, g, p⟩ := t
      rcases (mem_gradedOf _ _ sub cw g p).mp ht with ⟨hsub, -, -, -⟩
      exact hnosub sub hsub

/-- Witness for C4 (amended): applied to `envC4`, course `c4` and the
unmatched coursework id `"w4"`. -/
theorem c4_join_absence_witness :
    (∀ r ∈ ([] : List GradeRecord), r.courseId = "c4" → r.assignmentId ≠ "w4") ∧
    getGrades envC4 = .ok [] := by
  refine ⟨?_, rfl⟩
  exact (c4_join_absence envC4 ("c4") ("w4") (some []) rfl (by simp)).1 [] rfl

/-! ## Claim C5 -/

/-- C5: a breakdown row's percentage exists only when the submission passed
the guard (assigned grade present, joined max points present) and the max
points are positive; when defined it is `round(earned/possible·1000)/10`
with round-half-up (`jsRound`), so 87/100 gives 87.0 and 1/3 gives 33.3;
otherwise it is absent, never zero. -/
theorem c5_percentage_rule (env : Env) (cid : String)
    (cwData : Option (List CourseWork)) (subData : Option (List Submission))
    (rep : GradeReport)
    (hcw : env.listCourseWork cid ["PUBLISHED"] = .ok cwData)
    (hsub : env.listSubmissions cid ("-") ("me") = .ok subData)
    (h : calculateGrade env cid = .ok rep) :
    (∀ e ∈ rep.breakdown,
      (∃ sub cw, sub ∈ subData.getD [] ∧
        courseworkMapOf (cwData.getD []) sub.courseWorkId = some cw ∧
        sub.assignedGrade = some e.earned ∧ cw.maxPoints = some e.possible) ∧
      e.percentage = percentageOf e.earned e.possible ∧
      (e.percentage.isSome ↔ 0 < e.possible) ∧
      (e.percentage = some ((jsRound (e.earned / e.possible * 1000) : ℚ) / 10) ∨
        e.percentage = none)) ∧
    percentageOf 87 100 = some 87 ∧
    percentageOf 1 3 = some (333 / 10) := by
  refine ⟨?_, by decide, by decide⟩
  intro e he
  rcases calculateGrade_spec env cid cwData subData rep hcw hsub h with
    ⟨-, -, -, hbd, -, -⟩
  rw [hbd] at he
  rcases List.mem_map.mp he with ⟨t, ht, rfl⟩
  obtain ⟨sub, cw, g, p⟩ := t
  rcases (mem_gradedOf _ _ sub cw g p).mp ht with ⟨hsmem, hcm, hmp, hg⟩
  refine ⟨⟨sub, cw, hsmem, hcm, hg, hmp⟩, rfl, percentageOf_isSome g p, ?_⟩
  unfold mkBreakdownEntry percentageOf
  split
  · exact Or.inl rfl
  · exact Or.inr rfl

/-- Witness for C5: the report on `envC56` has rows 87/100 → 87.0 and
1/3 → 33.3, and the percentage formula instances hold. -/
theorem c5_percentage_rule_witness :
    calculateGrade envC56 ("c5") = .ok repC56 ∧
    (mkBreakdownEntry subG1 cwG1 87 100).percentage = some 87 ∧
    (mkBreakdownEntry subG2 cwG2 1 3).percentage = some (333 / 10) ∧
    percentageOf 87 100 = some 87 := by
  refine ⟨rfl, by decide, by decide, ?_⟩
  exact (c5_percentage_rule envC56 ("c5") (some [cwG1, cwG2, cwG3])
    (some [subG1, subG2, subG3, subG4, subG5]) repC56 rfl rfl rfl).2.1

/-! ## Claim C6 -/

/-- C6: `calculateGrade` accumulates `totalEarned`/`totalPossible` exactly
over the guard-passing submissions (`gradedOf`: joined coursework found,
max points present, assigned grade present — everything else contributes
nothing), and emits both totals, an overall percentage defined iff
`totalPossible > 0`, the count of graded assignments, and the breakdown in
submission iteration order. -/
theorem c6_calculateGrade_totals (env : Env) (cid : String)
    (cwData : Option (List CourseWork)) (subData : Option (List Submission))
    (rep : GradeReport)
    (hcw : env.listCourseWork cid ["PUBLISHED"] = .ok cwData)
    (hsub : env.listSubmissions cid ("-") ("me") = .ok subData)
    (h : calculateGrade env cid = .ok rep) :
    rep.courseId = cid ∧
    rep.totalEarned =
      ((gradedOf (courseworkMapOf (cwData.getD [])) (subData.getD [])).map
        (fun t => t.2.2.1)).sum ∧
    rep.totalPossible =
      ((gradedOf (courseworkMapOf (cwData.getD [])) (subData.getD [])).map
        (fun t => t.2.2.2)).sum ∧
    rep.breakdown =
      (gradedOf (courseworkMapOf (cwData.getD [])) (subData.getD [])).map
        (fun t => mkBreakdownEntry t.1 t.2.1 t.2.2.1 t.2.2.2) ∧
    rep.gradedAssignments = rep.breakdown.length ∧
    rep.overallPercentage = percentageOf rep.totalEarned rep.totalPossible ∧
    (rep.overallPercentage.isSome ↔ 0 < rep.totalPossible) ∧
    (∀ sub cw g p,
      (sub, cw, g, p) ∈ gradedOf (courseworkMapOf (cwData.getD [])) (subData.getD []) ↔
        sub ∈ subData.getD [] ∧
        courseworkMapOf (cwData.getD []) sub.courseWorkId = some cw ∧
        cw.maxPoints = some p ∧ sub.assignedGrade = some g) := by
  rcases calculateGrade_spec env cid cwData subData rep hcw hsub h with
    ⟨h1, h2, h3, h4, h5, h6⟩
  refine ⟨h1, h2, h3, h4, h5, h6, ?_, fun sub cw g p => mem_gradedOf _ _ sub cw g p⟩
  rw [h6]
  exact percentageOf_isSome rep.totalEarned rep.totalPossible

/-- Witness for C6: on `envC56` the submissions on a pointless coursework,
on an unknown coursework, and without a grade contribute nothing; the
totals are 88/103, two graded assignments, overall 85.4. -/
theorem c6_calculateGrade_totals_witness :
    calculateGrade envC56 ("c5") = .ok repC56 ∧
    repC56.courseId = "c5" ∧
    repC56.totalEarned = 88 ∧ repC56.totalPossible = 103 ∧
    repC56.gradedAssignments = 2 ∧
    repC56.overallPercentage = some (854 / 10) := by
  refine ⟨rfl, ?_, by decide, by decide, by decide, by decide⟩
  exact (c6_calculateGrade_totals envC56 ("c5") (some [cwG1, cwG2, cwG3])
    (some [subG1, subG2, subG3, subG4, subG5]) repC56 rfl rfl rfl).1

/-! ## Helpers for C1 and C8: success and congruence of the aggregations -/

theorem getUpcomingAssignments_ok (env : Env) (now : Int) (daysArg : Option Nat)
    (cdata : Option (List Course)) (h : env.listCourses ["ACTIVE"] = .ok cdata) :
    getUpcomingAssignments env now daysArg =
      .ok (insertionSort (fun a b => strLe a.dueDate b.dueDate)
        (upcomingStream env now (now + ((daysArg.getD 7 : Nat) : Int) * msPerDay)
          (cdata.getD []))) := by
  simp [getUpcomingAssignments, h]

theorem getMissingAssignments_ok (env : Env) (now : Int)
    (cdata : Option (List Course)) (h : env.listCourses ["ACTIVE"] = .ok cdata) :
    getMissingAssignments env now =
      .ok (insertionSort (fun a b => strLe a.dueDate b.dueDate)
        (missingStream env now (cdata.getD []))) := by
  simp [getMissingAssignments, h]

theorem getGrades_ok (env : Env)
    (cdata : Option (List Course)) (h : env.listCourses ["ACTIVE"] = .ok cdata) :
    getGrades env = .ok (((cdata.getD []).map (gradesPerCourse env)).flatten) := by
  simp [getGrades, h]

theorem getUpcomingAssignments_error (env : Env) (now : Int) (daysArg : Option Nat)
    (e : String) (h : env.listCourses ["ACTIVE"] = .error e) :
    getUpcomingAssignments env now daysArg = .error e := by
  simp [getUpcomingAssignments, h]

theorem getMissingAssignments_error (env : Env) (now : Int)
    (e : String) (h : env.listCourses ["ACTIVE"] = .error e) :
    getMissingAssignments env now = .error e := by
  simp [getMissingAssignments, h]

theorem getGrades_error (env : Env)
    (e : String) (h : env.listCourses ["ACTIVE"] = .error e) :
    getGrades env = .error e := by
  simp [getGrades, h]

theorem upcomingPerCourse_ext (e₁ e₂ : Env)
    (h : e₁.listCourseWork = e₂.listCourseWork) :
    upcomingPerCourse e₁ = upcomingPerCourse e₂ := by
  funext now cutoff c
  rw [upcomingPerCourse, upcomingPerCourse, h]

theorem missingPerCourse_ext (e₁ e₂ : Env)
    (hw : e₁.listCourseWork = e₂.listCourseWork)
    (hs : e₁.listSubmissions = e₂.listSubmissions) :
    missingPerCourse e₁ = missingPerCourse e₂ := by
  funext now c
  rw [missingPerCourse, missingPerCourse, hw, hs]

theorem gradesPerCourse_ext (e₁ e₂ : Env)
    (hw : e₁.listCourseWork = e₂.listCourseWork)
    (hs : e₁.listSubmissions = e₂.listSubmissions) :
    gradesPerCourse e₁ = gradesPerCourse e₂ := by
  funext c
  rw [gradesPerCourse, gradesPerCourse, hw, hs]

/-! ## Claim C1 -/

/-- C1: an error of one course's coursework or submission fetch is
equivalent to that course resolving with empty lists: the aggregate views
are unchanged when the failing course `b` is replaced by an empty course
(`e'`), so every sibling course's records survive intact; and the views
never produce a top-level error when the resolver succeeded. -/
theorem c1_per_course_failure_isolated (e e' : Env) (b : String)
    (hcs : e'.listCourses = e.listCourses)
    (hcw : ∀ cid states, cid ≠ b →
      e'.listCourseWork cid states = e.listCourseWork cid states)
    (hsb : ∀ cid cwid uid, cid ≠ b →
      e'.listSubmissions cid cwid uid = e.listSubmissions cid cwid uid)
    (hbw : e'.listCourseWork b ["PUBLISHED"] = .ok (some []))
    (hbs : e'.listSubmissions b ("-") ("me") = .ok (some [])) :
    ((∃ err, e.listCourseWork b ["PUBLISHED"] = .error err) →
      ∀ now daysArg,
        getUpcomingAssignments e now daysArg = getUpcomingAssignments e' now daysArg) ∧
    (((∃ err, e.listCourseWork b ["PUBLISHED"] = .error err) ∨
        (∃ err, e.listSubmissions b ("-") ("me") = .error err)) →
      (∀ now, getMissingAssignments e now = getMissingAssignments e' now) ∧
        getGrades e = getGrades e') ∧
    (∀ cdata, e.listCourses ["ACTIVE"] = .ok cdata →
      ∀ now daysArg,
        (∃ u, getUpcomingAssignments e now daysArg = .ok u) ∧
        (∃ m, getMissingAssignments e now = .ok m) ∧
        (∃ g, getGrades e = .ok g)) := by
  have hact : e'.listCourses ["ACTIVE"] = e.listCourses ["ACTIVE"] := by rw [hcs]
  refine ⟨?_, ?_, ?_⟩
  · rintro ⟨err, herr⟩ now daysArg
    have hpc : ∀ c : Course, ∀ cutoff,
        upcomingPerCourse e now cutoff c = upcomingPerCourse e' now cutoff c := by
      intro c cutoff
      by_cases hcid : c.id = b
      · simp [upcomingPerCourse, hcid, herr, hbw]
      · rw [upcomingPerCourse, upcomingPerCourse, hcw c.id ["PUBLISHED"] hcid]
    cases hc : e.listCourses ["ACTIVE"] with
    | error er =>
      rw [getUpcomingAssignments_error e now daysArg er hc,
        getUpcomingAssignments_error e' now daysArg er (hact.trans hc)]
    | ok cdata =>
      rw [getUpcomingAssignments_ok e now daysArg cdata hc,
        getUpcomingAssignments_ok e' now daysArg cdata (hact.trans hc)]
      have hstream :
          upcomingStream e now (now + ((daysArg.getD 7 : Nat) : Int) * msPerDay)
              (cdata.getD []) =
            upcomingStream e' now (now + ((daysArg.getD 7 : Nat) : Int) * msPerDay)
              (cdata.getD []) := by
        unfold upcomingStream
        exact congrArg List.flatten (List.map_congr_left fun c _ => hpc c _)
      rw [hstream]
  · intro hdisj
    refine ⟨fun now => ?_, ?_⟩
    · have hpc : ∀ c : Course,
          missingPerCourse e now c = missingPerCourse e' now c := by
        intro c
        by_cases hcid : c.id = b
        · rcases hdisj with ⟨err, herr⟩ | ⟨err, herr⟩
          · cases hsbb : e.listSubmissions b ("-") ("me") with
            | error er2 => simp [missingPerCourse, hcid, herr, hbw, hbs, hsbb]
            | ok sdata => simp [missingPerCourse, hcid, herr, hbw, hbs, hsbb]
          · cases hcwb : e.listCourseWork b ["PUBLISHED"] with
            | error er => simp [missingPerCourse, hcid, herr, hbw, hbs, hcwb]
            | ok wdata => simp [missingPerCourse, hcid, herr, hbw, hbs, hcwb]
        · rw [missingPerCourse, missingPerCourse, hcw c.id ["PUBLISHED"] hcid,
            hsb c.id ("-") ("me") hcid]
      cases hc : e.listCourses ["ACTIVE"] with
      | error er =>
        rw [getMissingAssignments_error e now er hc,
          getMissingAssignments_error e' now er (hact.trans hc)]
      | ok cdata =>
        rw [getMissingAssignments_ok e now cdata hc,
          getMissingAssignments_ok e' now cdata (hact.trans hc)]
        have hstream : missingStream e now (cdata.getD []) =
            missingStream e' now (cdata.getD []) := by
          unfold missingStream
          exact congrArg List.flatten (List.map_congr_left fun c _ => hpc c)
        rw [hstream]
    · have hpc : ∀ c : Course, gradesPerCourse e c = gradesPerCourse e' c := by
        intro c
        by_cases hcid : c.id = b
        · rcases hdisj with ⟨err, herr⟩ | ⟨err, herr⟩
          · cases hsbb : e.listSubmissions b ("-") ("me") with
            | error er2 => simp [gradesPerCourse, hcid, herr, hbw, hbs, hsbb]
            | ok sdata => simp [gradesPerCourse, hcid, herr, hbw, hbs, hsbb]
          · cases hcwb : e.listCourseWork b ["PUBLISHED"] with
            | error er => simp [gradesPerCourse, hcid, herr, hbw, hbs, hcwb]
            | ok wdata => simp [gradesPerCourse, hcid, herr, hbw, hbs, hcwb]
        · rw [gradesPerCourse, gradesPerCourse, hcw c.id ["PUBLISHED"] hcid,
            hsb c.id ("-") ("me") hcid]
      cases hc : e.listCourses ["ACTIVE"] with
      | error er =>
        rw [getGrades_error e er hc, getGrades_error e' er (hact.trans hc)]
      | ok cdata =>
        rw [getGrades_ok e cdata hc, getGrades_ok e' cdata (hact.trans hc)]
        have hmap : (cdata.getD []).map (gradesPerCourse e) =
            (cdata.getD []).map (gradesPerCourse e') :=
          List.map_congr_left fun c _ => hpc c
        rw [hmap]
  · intro cdata hc now daysArg
    exact ⟨⟨_, getUpcomingAssignments_ok e now daysArg cdata hc⟩,
      ⟨_, getMissingAssignments_ok e now cdata hc⟩,
      ⟨_, getGrades_ok e cdata hc⟩⟩

/-- Witness for C1: three active courses where course B's coursework fetch
rejects.  The three views agree with the run where B is empty, no top-level
error occurs, and courses A and C of the Upcoming/Missing/Grades outputs
are intact. -/
theorem c1_per_course_failure_isolated_witness :
    getUpcomingAssignments envC1 nowMarch10 none =
      getUpcomingAssignments envC1ok nowMarch10 none ∧
    getMissingAssignments envC1 nowMarch10 = getMissingAssignments envC1ok nowMarch10 ∧
    getGrades envC1 = getGrades envC1ok ∧
    getUpcomingAssignments envC1 nowMarch10 none =
      .ok [mkUpcomingRecord courseC cwC1, mkUpcomingRecord courseA cwA1] ∧
    getMissingAssignments envC1 nowMarch10 =
      .ok [mkMissingRecord courseA (submissionMapOf [subA2]) cwA2] ∧
    getGrades envC1 = .ok [mkGradeRecord courseA (courseworkMapOf [cwA1, cwA2]) subA2] := by
  have h := c1_per_course_failure_isolated envC1 envC1ok ("cB") rfl
    (fun cid states hne => by simp [envC1, envC1ok, hne])
    (fun cid cwid uid hne => rfl) rfl rfl
  exact ⟨h.1 ⟨"boom", rfl⟩ nowMarch10 none,
    (h.2.1 (Or.inl ⟨"boom", rfl⟩)).1 nowMarch10,
    (h.2.1 (Or.inl ⟨"boom", rfl⟩)).2, rfl, rfl, rfl⟩

/-! ## Claim C7 -/

/-- C7: in every Upcoming or Missing result, the due-date strings appear in
ascending (string) order, and ties keep the relative order of the
underlying per-course then per-item stream (the sort is stable: filtering
the output by any fixed due-date string gives exactly the stream's records
with that string, in stream order). -/
theorem c7_views_sorted (env : Env) (now : Int) (daysArg : Option Nat)
    (cdata : Option (List Course))
    (hc : env.listCourses ["ACTIVE"] = .ok cdata)
    (uout : List UpcomingRecord) (mout : List MissingRecord)
    (hu : getUpcomingAssignments env now daysArg = .ok uout)
    (hm : getMissingAssignments env now = .ok mout) :
    uout.Pairwise (fun a b => a.dueDate ≤ b.dueDate) ∧
    mout.Pairwise (fun a b => a.dueDate ≤ b.dueDate) ∧
    (∀ s, uout.filter (fun r => r.dueDate == s) =
      (upcomingStream env now (now + ((daysArg.getD 7 : Nat) : Int) * msPerDay)
        (cdata.getD [])).filter (fun r => r.dueDate == s)) ∧
    (∀ s, mout.filter (fun r => r.dueDate == s) =
      (missingStream env now (cdata.getD [])).filter (fun r => r.dueDate == s)) := by
  simp only [getUpcomingAssignments, hc, Except.ok.injEq] at hu
  simp only [getMissingAssignments, hc, Except.ok.injEq] at hm
  subst hu
  subst hm
  refine ⟨?_, ?_, ?_, ?_⟩
  · exact (sorted_insertionSort (fun a b : UpcomingRecord => strLe a.dueDate b.dueDate)
      (fun x y z hxy hyz => (strLe_iff _ _).mpr
        (le_trans ((strLe_iff _ _).mp hxy) ((strLe_iff _ _).mp hyz)))
      (fun x y => by
        rcases le_total x.dueDate y.dueDate with h | h
        · exact Or.inl ((strLe_iff _ _).mpr h)
        · exact Or.inr ((strLe_iff _ _).mpr h)) _).imp
      fun hxy => (strLe_iff _ _).mp hxy
  · exact (sorted_insertionSort (fun a b : MissingRecord => strLe a.dueDate b.dueDate)
      (fun x y z hxy hyz => (strLe_iff _ _).mpr
        (le_trans ((strLe_iff _ _).mp hxy) ((strLe_iff _ _).mp hyz)))
      (fun x y => by
        rcases le_total x.dueDate y.dueDate with h | h
        · exact Or.inl ((strLe_iff _ _).mpr h)
        · exact Or.inr ((strLe_iff _ _).mpr h)) _).imp
      fun hxy => (strLe_iff _ _).mp hxy
  · intro s
    refine filter_insertionSort _ _ (fun a b ha hb => ?_) _
    have ha' : a.dueDate = s := by simpa using ha
    have hb' : b.dueDate = s := by simpa using hb
    rw [ha', hb']
    exact (strLe_iff s s).mpr le_rfl
  · intro s
    refine filter_insertionSort _ _ (fun a b ha hb => ?_) _
    have ha' : a.dueDate = s := by simpa using ha
    have hb' : b.dueDate = s := by simpa using hb
    rw [ha', hb']
    exact (strLe_iff s s).mpr le_rfl

/-- Witness for C7: on `envC7` the Upcoming output is sorted and the tie
between `x1` and `y1` (both "2026-03-12") keeps per-course order. -/
theorem c7_views_sorted_witness :
    getUpcomingAssignments envC7 nowMarch10 none = .ok uoutC7 ∧
    uoutC7.Pairwise (fun a b => a.dueDate ≤ b.dueDate) ∧
    uoutC7.filter (fun r => r.dueDate == "2026-03-12") =
      (upcomingStream envC7 nowMarch10 (nowMarch10 + ((7 : Nat) : Int) * msPerDay)
        [courseX, courseY]).filter (fun r => r.dueDate == "2026-03-12") := by
  have h := c7_views_sorted envC7 nowMarch10 none (some [courseX, courseY]) rfl
    uoutC7 [] rfl rfl
  exact ⟨rfl, h.1, h.2.2.1 ("2026-03-12")⟩

/-! ## Claim C8 -/

/-- C8: the three aggregate views consult the course resolver only at the
fixed filter value `["ACTIVE"]`: two services agreeing there (and on the
per-course fetches) produce identical outputs for every caller-supplied
option, however the resolvers answer any other filter. -/
theorem c8_active_only (e₁ e₂ : Env)
    (hres : e₁.listCourses ["ACTIVE"] = e₂.listCourses ["ACTIVE"])
    (hcw : e₁.listCourseWork = e₂.listCourseWork)
    (hsb : e₁.listSubmissions = e₂.listSubmissions) :
    (∀ now daysArg,
      getUpcomingAssignments e₁ now daysArg = getUpcomingAssignments e₂ now daysArg) ∧
    (∀ now, getMissingAssignments e₁ now = getMissingAssignments e₂ now) ∧
    getGrades e₁ = getGrades e₂ := by
  refine ⟨fun now daysArg => ?_, fun now => ?_, ?_⟩
  · simp only [getUpcomingAssignments, upcomingStream, hres,
      upcomingPerCourse_ext e₁ e₂ hcw]
  · simp only [getMissingAssignments, missingStream, hres,
      missingPerCourse_ext e₁ e₂ hcw hsb]
  · simp only [getGrades, hres, gradesPerCourse_ext e₁ e₂ hcw hsb]

/-- Witness for C8: `envC8a` and `envC8b` disagree on every resolver query
except the ACTIVE-only one (one answers, the other rejects), yet all views
coincide for any caller options. -/
theorem c8_active_only_witness :
    getUpcomingAssignments envC8a nowMarch10 (some 3) =
      getUpcomingAssignments envC8b nowMarch10 (some 3) ∧
    getMissingAssignments envC8a nowMarch10 = getMissingAssignments envC8b nowMarch10 ∧
    getGrades envC8a = getGrades envC8b ∧
    (envC8a.listCourses ["ARCHIVED"]).isOk = true ∧
    (envC8b.listCourses ["ARCHIVED"]).isOk = false := by
  have h := c8_active_only envC8a envC8b rfl rfl rfl
  exact ⟨h.1 nowMarch10 (some 3), h.2.1 nowMarch10, h.2.2, rfl, rfl⟩

/-! ## Claim C9 -/

/-- C9: when the course resolver itself rejects, each aggregate view
propagates that same error to the caller as a single aggregation-level
failure instead of swallowing it or answering with an empty result. -/
theorem c9_resolver_failure_fatal (env : Env) (e : String)
    (h : env.listCourses ["ACTIVE"] = .error e) :
    (∀ now daysArg, getUpcomingAssignments env now daysArg = .error e) ∧
    (∀ now, getMissingAssignments env now = .error e) ∧
    getGrades env = .error e := by
  refine ⟨fun now daysArg => ?_, fun now => ?_, ?_⟩ <;>
    simp [getUpcomingAssignments, getMissingAssignments, getGrades, h]

/-- Witness for C9: `envC9`'s resolver rejects with "service down"; each
view surfaces exactly that error. -/
theorem c9_resolver_failure_fatal_witness :
    getUpcomingAssignments envC9 nowMarch10 none = .error ("service down") ∧
    getMissingAssignments envC9 nowMarch10 = .error ("service down") ∧
    getGrades envC9 = .error ("service down") := by
  have h := c9_resolver_failure_fatal envC9 ("service down") rfl
  exact ⟨h.1 nowMarch10 none, h.2.1 nowMarch10, h.2.2⟩

/-! ## Claim C10 -/

/-- C10: the `createCoursework` request body carries a `maxPoints` property
exactly when the supplied value is truthy — a supplied `0` is silently
omitted — while `state` is always PUBLISHED and `workType` falls back to
ASSIGNMENT when none is supplied. -/
theorem c10_createCoursework_body (args : CreateArgs) :
    (createCourseworkBody args).state = "PUBLISHED" ∧
    (args.workType = none → (createCourseworkBody args).workType = "ASSIGNMENT") ∧
    ((createCourseworkBody args).maxPoints ≠ none ↔
      ∃ p, args.maxPoints = some p ∧ p ≠ 0) ∧
    (args.maxPoints = some 0 → (createCourseworkBody args).maxPoints = none) ∧
    (∀ p, args.maxPoints = some p → p ≠ 0 →
      (createCourseworkBody args).maxPoints = some p) := by
  have hfields :
      (createCourseworkBody args).state = "PUBLISHED" ∧
      (createCourseworkBody args).workType =
        (match args.workType with
          | some w => if w = "" then ("ASSIGNMENT") else w
          | none => "ASSIGNMENT") ∧
      (createCourseworkBody args).maxPoints =
        (match args.maxPoints with
          | some p => if p = 0 then none else some p
          | none => none) := by
    refine ⟨?_, ?_, ?_⟩
    all_goals
      unfold createCourseworkBody
      cases args.maxPoints <;> cases args.dueDate <;> cases args.dueTime <;>
        dsimp only <;> (try split_ifs) <;> rfl
  rcases hfields with ⟨h1, h2, h3⟩
  refine ⟨h1, ?_, ?_, ?_, ?_⟩
  · intro hwt
    rw [h2, hwt]
  · rw [h3]
    cases hmp : args.maxPoints with
    | none => simp
    | some p =>
      by_cases hp : p = 0 <;> simp [hp]
  · intro hmp
    rw [h3, hmp]
    simp
  · intro p hmp hp
    rw [h3, hmp]
    simp [hp]

/-- Witness for C10: with `maxPoints = 0` supplied and no work type, the
body omits `maxPoints`, is PUBLISHED and defaults to ASSIGNMENT. -/
theorem c10_createCoursework_body_witness :
    (createCourseworkBody argsC10).maxPoints = none ∧
    (createCourseworkBody argsC10).state = "PUBLISHED" ∧
    (createCourseworkBody argsC10).workType = "ASSIGNMENT" := by
  have h := c10_createCoursework_body argsC10
  exact ⟨h.2.2.2.1 rfl, h.1, h.2.1 rfl⟩

end ClassroomMCP
